import Mathlib

/-!
Verification of the 2bttns player-score resolution query and the
game-objects table logic, shallowly embedded from the TypeScript sources.

The relational store (Prisma) is modelled as in-memory lists of rows;
`findMany` with a `where` clause becomes `List.filter` over the rows in
store order, `orderBy score desc` becomes a stable descending sort, and
`include` becomes an optional lookup of the related row.
-/

set_option maxHeartbeats 1000000

namespace TwoBttns

/-- Timestamps (Prisma `DateTime`), identified by epoch milliseconds. -/
structure DateTime where
  millis : Nat
deriving DecidableEq, Repr

/-- Model of JS `Date.prototype.toISOString`: a string rendering of the
instant (the exact format is irrelevant to the claims; only that output
timestamps are produced by this coercion matters). -/
def DateTime.toISOString (d : DateTime) : String :=
  toString d.millis ++ "Z"

/-- Prisma `Decimal` (high-precision numeric wrapper). -/
structure Decimal where
  val : Int
deriving DecidableEq, Repr

/-- Model of `Decimal.prototype.toNumber`: unwrap to a plain number. -/
def Decimal.toNumber (d : Decimal) : Int :=
  d.val

/-- A `Tag` row: `inputToGames` is the many-to-many relation to games,
represented by the ids of the games the tag is an input to. -/
structure Tag where
  id : String
  name : String
  inputToGames : List String
deriving DecidableEq, Repr

/-- A `GameObject` row; `tags` is the many-to-many relation to tags,
represented by tag ids. -/
structure GameObject where
  id : String
  createdAt : DateTime
  updatedAt : DateTime
  name : String
  description : Option String
  tags : List String
deriving DecidableEq, Repr

/-- A `PlayerScore` row. -/
structure PlayerScore where
  playerId : String
  gameObjectId : String
  score : Decimal
  createdAt : DateTime
  updatedAt : DateTime
deriving DecidableEq, Repr

/-- The relational store: rows kept in insertion order. -/
structure Store where
  tags : List Tag
  gameObjects : List GameObject
  playerScores : List PlayerScore
deriving DecidableEq, Repr

/-- Caller identity after authentication (`ctx.authData`): either a
player-scoped token carrying the player's user id, or any other
authenticated credential type. -/
inductive AuthData where
  | player_token (userId : String)
  | app_token
deriving DecidableEq, Repr

/-- Request context: authenticated identity plus the store. -/
structure Ctx where
  authData : AuthData
  store : Store
deriving DecidableEq, Repr

/-- TRPC error codes used by the embedded handlers. -/
inductive ErrorCode where
  | UNAUTHORIZED
  | BAD_REQUEST
deriving DecidableEq, Repr

/-- A `TRPCError`. -/
structure TRPCError where
  code : ErrorCode
  message : String
deriving DecidableEq, Repr

/-- Parsed input of `getPlayerScores` (after zod validation). -/
structure GetPlayerScoresInput where
  game_id : String
  player_id : String
  include_game_objects : Bool
deriving DecidableEq, Repr

/-- Shape of an embedded game object in the output (`output` zod schema):
id, timestamps as strings, name, nullable description — and no tags. -/
structure GameObjectOut where
  id : String
  createdAt : String
  updatedAt : String
  name : String
  description : Option String
deriving DecidableEq, Repr

/-- Shape of one player-score record in the output (`output` zod schema). -/
structure PlayerScoreOut where
  createdAt : String
  updatedAt : String
  score : Int
  playerId : String
  gameObjectId : String
  gameObject : Option GameObjectOut
deriving DecidableEq, Repr

/-- The full `getPlayerScores` response. -/
structure GetPlayerScoresOutput where
  playerScores : List PlayerScoreOut
deriving DecidableEq, Repr

/-- Step 1 of the query: `tag.findMany` where `inputToGames some id = game_id`. -/
def gameTagsOf (s : Store) (gameId : String) : List Tag :=
  s.tags.filter (fun t => t.inputToGames.contains gameId)

/-- Step 2: `gameObject.findMany` where `tags some id in gameTags.map(id)`. -/
def gameObjectsOf (s : Store) (gameId : String) : List GameObject :=
  s.gameObjects.filter (fun go =>
    go.tags.any (fun tid => ((gameTagsOf s gameId).map Tag.id).contains tid))

/-- Step 3, before ordering: `playerScore.findMany` where
`gameObjectId in gameObjects.map(id)` and `playerId = player_id`. -/
def rawPlayerScores (s : Store) (input : GetPlayerScoresInput) : List PlayerScore :=
  s.playerScores.filter (fun ps =>
    ((gameObjectsOf s input.game_id).map GameObject.id).contains ps.gameObjectId
      && ps.playerId == input.player_id)

/-- Stable descending insertion: `x` moves past rows with a strictly larger
score and lands before the first row whose score is `≤` its own. -/
def insertScoreDesc (x : PlayerScore) : List PlayerScore → List PlayerScore
  | [] => [x]
  | y :: ys =>
    if x.score.val < y.score.val then y :: insertScoreDesc x ys
    else x :: y :: ys

/-- Model of the store's `orderBy: { score: "desc" }`: a stable sort by
score, descending. -/
def sortScoresDesc : List PlayerScore → List PlayerScore
  | [] => []
  | x :: xs => insertScoreDesc x (sortScoresDesc xs)

/-- Lookup of a score's related game object (the `include` join). -/
def Store.findGameObject (s : Store) (goId : String) : Option GameObject :=
  s.gameObjects.find? (fun go => go.id == goId)

/-- Output shaping of an embedded game object: timestamps to ISO strings. -/
def shapeGameObject (go : GameObject) : GameObjectOut :=
  { id := go.id
    createdAt := go.createdAt.toISOString
    updatedAt := go.updatedAt.toISOString
    name := go.name
    description := go.description }

/-- Output shaping of one score row: `score.toNumber()`, timestamps to ISO
strings, and the embedded game object present only when requested. -/
def shapeScore (s : Store) (includeGameObjects : Bool) (ps : PlayerScore) :
    PlayerScoreOut :=
  { createdAt := ps.createdAt.toISOString
    updatedAt := ps.updatedAt.toISOString
    score := ps.score.toNumber
    playerId := ps.playerId
    gameObjectId := ps.gameObjectId
    gameObject :=
      if includeGameObjects then (s.findGameObject ps.gameObjectId).map shapeGameObject
      else none }

/-- The query body of `getPlayerScores` after the authorization gate:
three sequential lookups, descending sort, then output shaping. -/
def runPlayerScoresQuery (s : Store) (input : GetPlayerScoresInput) :
    GetPlayerScoresOutput :=
  { playerScores :=
      (sortScoresDesc (rawPlayerScores s input)).map
        (shapeScore s input.include_game_objects) }

/-- The `getPlayerScores` procedure: player-scoped callers may only query
their own id; any other authenticated caller is unrestricted. -/
def getPlayerScores (ctx : Ctx) (input : GetPlayerScoresInput) :
    Except TRPCError GetPlayerScoresOutput :=
  match ctx.authData with
  | .player_token userId =>
    if userId ≠ input.player_id then
      .error { code := .UNAUTHORIZED
               message := "Player " ++ userId ++
                 " is only authorized to get their own scores" }
    else
      .ok (runPlayerScoresQuery ctx.store input)
  | .app_token =>
      .ok (runPlayerScoresQuery ctx.store input)

/-- Raw wire input to the endpoint before zod validation: each field either
absent or a string. -/
structure RawGetPlayerScoresInput where
  game_id : Option String
  player_id : Option String
  include_game_objects : Option String
deriving DecidableEq, Repr

/-- The zod input schema: `game_id` and `player_id` are `z.string()`
(required, but with no non-emptiness constraint); `include_game_objects`
is preprocessed by comparison with the literal string `true` and defaults
to `false` when absent. -/
def parseGetPlayerScoresInput (raw : RawGetPlayerScoresInput) :
    Except TRPCError GetPlayerScoresInput :=
  match raw.game_id, raw.player_id with
  | some g, some p =>
    .ok { game_id := g
          player_id := p
          include_game_objects :=
            match raw.include_game_objects with
            | some v => v == "true"
            | none => false }
  | _, _ => .error { code := .BAD_REQUEST, message := "Invalid input" }

/-- The endpoint: validate the raw input, then run the procedure. -/
def getPlayerScoresEndpoint (ctx : Ctx) (raw : RawGetPlayerScoresInput) :
    Except TRPCError GetPlayerScoresOutput := do
  let input ← parseGetPlayerScoresInput raw
  getPlayerScores ctx input

/-- Semantic characterization of which score rows qualify for a
`(game_id, player_id)` query: the row belongs to the player and its game
object carries at least one tag associated with the game through
`inputToGames`. -/
def scoreQualifies (s : Store) (gameId playerId : String) (ps : PlayerScore) :
    Prop :=
  ps.playerId = playerId ∧
    ∃ go ∈ s.gameObjects, go.id = ps.gameObjectId ∧
      ∃ t ∈ s.tags, t.id ∈ go.tags ∧ gameId ∈ t.inputToGames

instance (s : Store) (gameId playerId : String) (ps : PlayerScore) :
    Decidable (scoreQualifies s gameId playerId ps) := by
  unfold scoreQualifies
  infer_instance

/-- A Prisma `contains` condition on a text column. -/
structure ContainsFilter where
  contains : String
deriving DecidableEq, Repr

/-- Character-level matching of a pattern against the front of a string. -/
def matchCharsAt : List Char → List Char → Bool
  | [], _ => true
  | _ :: _, [] => false
  | p :: ps, c :: cs => p == c && matchCharsAt ps cs

/-- Does the pattern occur anywhere in the character list? -/
def hasSubstrAux (pat : List Char) : List Char → Bool
  | [] => pat.isEmpty
  | c :: cs => matchCharsAt pat (c :: cs) || hasSubstrAux pat cs

/-- Model of Prisma's case-sensitive substring condition `contains`. -/
def strContains (s pat : String) : Bool :=
  hasSubstrAux pat.toList s.toList

/-- Modelled from the spec: the optional exact-match tag filter of the
game-objects listing (the `tagFilter` zod type lives in the gameobjects
router's getAll file, which is not among the sources): a tag id that a
matching game object must carry exactly. -/
structure TagFilter where
  tagId : String
deriving DecidableEq, Repr

/-- The filter value that the game-objects table passes to both `getAll`
and `getCount`: an optional OR mode, optional `contains` conditions per
text column, and the optional tag filter. -/
structure GameObjectFilter where
  mode : Option String
  id : Option ContainsFilter
  name : Option ContainsFilter
  description : Option ContainsFilter
  tag : Option TagFilter
deriving DecidableEq, Repr

/-- The filter constructed by `GameObjectsTable` for its list query and its
companion count query: a truthy (non-empty) global filter supplies
`mode: "OR"` with `contains` conditions on id and name only; otherwise
only the tag filter is passed. -/
def buildGameObjectFilter (globalFilter : String) (tag : Option TagFilter) :
    GameObjectFilter :=
  if globalFilter ≠ "" then
    { mode := some "OR"
      id := some { contains := globalFilter }
      name := some { contains := globalFilter }
      description := none
      tag := tag }
  else
    { mode := none, id := none, name := none, description := none, tag := tag }

/-- Modelled from the spec: the server-side `getAll`/`getCount` matching
predicate of the gameobjects router (that router file is not among the
sources). Per the spec, the listing supports a substring filter on
id/name/description with OR semantics across the supplied conditions,
combined with the optional exact-match tag filter; with no text condition
supplied, every game object text-matches. -/
def matchesGameObjectFilter (f : GameObjectFilter) (go : GameObject) : Bool :=
  let idMatch := match f.id with
    | some c => strContains go.id c.contains
    | none => false
  let nameMatch := match f.name with
    | some c => strContains go.name c.contains
    | none => false
  let descMatch := match f.description with
    | some c => strContains (go.description.getD "") c.contains
    | none => false
  let textMatch := match f.id, f.name, f.description with
    | none, none, none => true
    | _, _, _ => idMatch || nameMatch || descMatch
  let tagMatch := match f.tag with
    | some tf => go.tags.contains tf.tagId
    | none => true
  textMatch && tagMatch

/-- The `data` payload of `gameObjects.updateById`; every field optional. -/
structure UpdateGameObjectData where
  id : Option String
  name : Option String
  description : Option String
  tags : Option (List String)
deriving DecidableEq, Repr

/-- Prisma `update` data applied to one row: absent scalar fields keep
their value; `tags: { connect: [...] }` adds the listed associations
without removing existing ones (connecting an already-connected tag
changes nothing). -/
def applyGameObjectUpdate (go : GameObject) (d : UpdateGameObjectData) :
    GameObject :=
  { go with
    id := d.id.getD go.id
    name := d.name.getD go.name
    description :=
      match d.description with
      | some v => some v
      | none => go.description
    tags := go.tags ++ (d.tags.getD []).filter (fun t => !go.tags.contains t) }

/-- `gameObjects.updateById`: update the row with the given unique id and
return it; a missing row is a store-level error. -/
def updateById (s : Store) (whereId : String) (d : UpdateGameObjectData) :
    Except TRPCError (Store × GameObject) :=
  match s.gameObjects.find? (fun go => go.id == whereId) with
  | none => .error { code := .BAD_REQUEST, message := "Record to update not found" }
  | some go =>
    .ok ({ s with
            gameObjects := s.gameObjects.map
              (fun g => if g.id == whereId then applyGameObjectUpdate g d else g) },
         applyGameObjectUpdate go d)

/-- Page-count computation of the game-objects table:
`Math.ceil(count / pageSize)`, as a natural-number ceiling division. -/
def pageCount (count pageSize : Nat) : Nat :=
  (count + pageSize - 1) / pageSize

/-- The page-index adjustment effect of the game-objects table: reset an
out-of-bounds index to the last page, return early when the page count is
zero, and otherwise clamp a negative index to zero. -/
def adjustPageIndex (pageIndex : Int) (pc : Nat) : Int :=
  if pageIndex ≥ (pc : Int) then (pc : Int) - 1
  else if pc = 0 then pageIndex
  else if pageIndex < 0 then 0
  else pageIndex

/-! Helper lemmas about the descending stable sort. -/

lemma insertScoreDesc_perm (x : PlayerScore) (l : List PlayerScore) :
    (insertScoreDesc x l).Perm (x :: l) := by
  induction l with
  | nil => rfl
  | cons y ys ih =>
    rw [insertScoreDesc]
    split
    · exact (ih.cons y).trans (List.Perm.swap x y ys)
    · rfl

lemma sortScoresDesc_perm (l : List PlayerScore) : (sortScoresDesc l).Perm l := by
  induction l with
  | nil => rfl
  | cons x xs ih =>
    exact (insertScoreDesc_perm x (sortScoresDesc xs)).trans (ih.cons x)

lemma insertScoreDesc_sorted (x : PlayerScore) (l : List PlayerScore)
    (h : l.Pairwise (fun a b => b.score.val ≤ a.score.val)) :
    (insertScoreDesc x l).Pairwise (fun a b => b.score.val ≤ a.score.val) := by
  induction l with
  | nil => simp [insertScoreDesc]
  | cons y ys ih =>
    rw [List.pairwise_cons] at h
    rw [insertScoreDesc]
    split
    · rename_i hlt
      rw [List.pairwise_cons]
      refine ⟨?_, ih h.2⟩
      intro b hb
      rw [(insertScoreDesc_perm x ys).mem_iff, List.mem_cons] at hb
      rcases hb with hb | hb
      · subst hb
        exact le_of_lt hlt
      · exact h.1 b hb
    · rename_i hge
      push_neg at hge
      rw [List.pairwise_cons]
      refine ⟨?_, List.pairwise_cons.mpr h⟩
      intro b hb
      rw [List.mem_cons] at hb
      rcases hb with hb | hb
      · subst hb
        exact hge
      · exact le_trans (h.1 b hb) hge

lemma sortScoresDesc_sorted (l : List PlayerScore) :
    (sortScoresDesc l).Pairwise (fun a b => b.score.val ≤ a.score.val) := by
  induction l with
  | nil => exact List.Pairwise.nil
  | cons x xs ih => exact insertScoreDesc_sorted x (sortScoresDesc xs) ih

lemma insertScoreDesc_filter_eq (x : PlayerScore) (l : List PlayerScore) (v : Int) :
    (insertScoreDesc x l).filter (fun r => r.score.val == v) =
      (x :: l).filter (fun r => r.score.val == v) := by
  induction l with
  | nil => rfl
  | cons y ys ih =>
    rw [insertScoreDesc]
    split
    · rename_i hlt
      by_cases hx : x.score.val = v
      · have hy : ¬ (y.score.val = v) := by omega
        simp only [List.filter_cons, beq_iff_eq, hx, hy]
        simp only [decide_True, decide_False, if_true, if_false]
        rw [ih]
        simp [List.filter_cons, hx, hy]
      · simp only [List.filter_cons, beq_iff_eq, hx]
        by_cases hy : y.score.val = v
        · simp only [hy, decide_True, decide_False, if_true, if_false]
          rw [ih]
          simp [List.filter_cons, hx, hy]
        · simp only [hy, decide_False, if_false]
          rw [ih]
          simp [List.filter_cons, hx, hy]
    · rfl

lemma sortScoresDesc_filter_eq (l : List PlayerScore) (v : Int) :
    (sortScoresDesc l).filter (fun r => r.score.val == v) =
      l.filter (fun r => r.score.val == v) := by
  induction l with
  | nil => rfl
  | cons x xs ih =>
    rw [sortScoresDesc, insertScoreDesc_filter_eq]
    simp only [List.filter_cons]
    rw [ih]

lemma rawPlayerScores_eq_filter (s : Store) (input : GetPlayerScoresInput) :
    rawPlayerScores s input =
      s.playerScores.filter
        (fun ps => decide (scoreQualifies s input.game_id input.player_id ps)) := by
  unfold rawPlayerScores
  apply List.filter_congr
  intro ps _
  rw [Bool.eq_iff_iff]
  simp only [Bool.and_eq_true, beq_iff_eq, decide_eq_true_eq, scoreQualifies,
    gameObjectsOf, gameTagsOf, List.contains_iff_exists_mem_beq, List.mem_map,
    List.mem_filter, List.any_eq_true, beq_iff_eq]
  constructor
  · rintro ⟨⟨goid, ⟨go, ⟨hgomem, tid, htid, tname, ⟨⟨t, ⟨htmem, g, hg, hgeq⟩, htId⟩,
      htidEq⟩⟩, hgoid⟩, hps⟩, hpid⟩
    subst hgeq
    refine ⟨hpid, go, hgomem, by rw [hgoid, hps], t, htmem, ?_, hg⟩
    rw [htId, ← htidEq]
    exact htid
  · rintro ⟨hpid, go, hgomem, hgoid, t, htmem, htid, htg⟩
    exact ⟨⟨ps.gameObjectId,
      ⟨go, ⟨hgomem, t.id, htid, t.id, ⟨⟨t, ⟨htmem, input.game_id, htg, rfl⟩, rfl⟩, rfl⟩⟩,
        hgoid⟩, rfl⟩, hpid⟩

lemma getPlayerScores_ok_elim (ctx : Ctx) (input : GetPlayerScoresInput)
    (out : GetPlayerScoresOutput) (h : getPlayerScores ctx input = .ok out) :
    out = runPlayerScoresQuery ctx.store input := by
  unfold getPlayerScores at h
  cases hauth : ctx.authData with
  | player_token u =>
    rw [hauth] at h
    dsimp only at h
    by_cases hu : u ≠ input.player_id
    · rw [if_pos hu] at h
      exact Except.noConfusion h
    · rw [if_neg hu] at h
      exact (Except.ok.inj h).symm
  | app_token =>
    rw [hauth] at h
    exact (Except.ok.inj h).symm

/-- C1: for every game id and player id, every successful `getPlayerScores`
result contains exactly (up to the descending reordering) the player's
score records whose game object carries at least one tag associated with
the game through `inputToGames`, each shaped for output; score rows
outside that tag intersection never appear, even when they are in the
store. -/
theorem getPlayerScores_exact_tag_intersection (ctx : Ctx)
    (input : GetPlayerScoresInput) (out : GetPlayerScoresOutput)
    (h : getPlayerScores ctx input = .ok out) :
    out.playerScores.Perm
      ((ctx.store.playerScores.filter
          (fun ps =>
            decide (scoreQualifies ctx.store input.game_id input.player_id ps))).map
        (shapeScore ctx.store input.include_game_objects)) := by
  rw [getPlayerScores_ok_elim ctx input out h]
  rw [runPlayerScoresQuery]
  rw [← rawPlayerScores_eq_filter]
  exact (sortScoresDesc_perm _).map _

theorem getPlayerScores_exact_tag_intersection_witness :
    ([({ createdAt := "0Z", updatedAt := "0Z", score := (5 : Int), playerId := "p1",
         gameObjectId := "go1", gameObject := none } : PlayerScoreOut)]).Perm
      ((([⟨"p1", "go1", ⟨5⟩, ⟨0⟩, ⟨0⟩⟩, ⟨"p1", "go2", ⟨9⟩, ⟨0⟩, ⟨0⟩⟩] :
            List PlayerScore).filter
          (fun ps =>
            decide (scoreQualifies
              ⟨[⟨"t1", "tag one", ["g1"]⟩],
               [⟨"go1", ⟨0⟩, ⟨0⟩, "one", none, ["t1"]⟩,
                ⟨"go2", ⟨0⟩, ⟨0⟩, "two", none, ["t2"]⟩],
               [⟨"p1", "go1", ⟨5⟩, ⟨0⟩, ⟨0⟩⟩, ⟨"p1", "go2", ⟨9⟩, ⟨0⟩, ⟨0⟩⟩]⟩
              "g1" "p1" ps))).map
        (shapeScore
          ⟨[⟨"t1", "tag one", ["g1"]⟩],
           [⟨"go1", ⟨0⟩, ⟨0⟩, "one", none, ["t1"]⟩,
            ⟨"go2", ⟨0⟩, ⟨0⟩, "two", none, ["t2"]⟩],
           [⟨"p1", "go1", ⟨5⟩, ⟨0⟩, ⟨0⟩⟩, ⟨"p1", "go2", ⟨9⟩, ⟨0⟩, ⟨0⟩⟩]⟩
          false)) :=
  getPlayerScores_exact_tag_intersection
    ⟨.app_token,
      ⟨[⟨"t1", "tag one", ["g1"]⟩],
       [⟨"go1", ⟨0⟩, ⟨0⟩, "one", none, ["t1"]⟩,
        ⟨"go2", ⟨0⟩, ⟨0⟩, "two", none, ["t2"]⟩],
       [⟨"p1", "go1", ⟨5⟩, ⟨0⟩, ⟨0⟩⟩, ⟨"p1", "go2", ⟨9⟩, ⟨0⟩, ⟨0⟩⟩]⟩⟩
    ⟨"g1", "p1", false⟩
    ⟨[{ createdAt := "0Z", updatedAt := "0Z", score := (5 : Int), playerId := "p1",
        gameObjectId := "go1", gameObject := none }]⟩ (by rfl)

/-- C2: a caller authenticated with a player-scoped credential whose
identity differs from the requested player id gets an authorization error
(and no score data); the same credential for its own id, and any other
authenticated credential type, are unrestricted and receive the query
result. -/
theorem getPlayerScores_player_auth (ctx : Ctx) (input : GetPlayerScoresInput) :
    (∀ u, ctx.authData = .player_token u → u ≠ input.player_id →
      getPlayerScores ctx input =
        .error { code := .UNAUTHORIZED
                 message := "Player " ++ u ++
                   " is only authorized to get their own scores" }) ∧
    (∀ u, ctx.authData = .player_token u → u = input.player_id →
      getPlayerScores ctx input = .ok (runPlayerScoresQuery ctx.store input)) ∧
    (ctx.authData = .app_token →
      getPlayerScores ctx input = .ok (runPlayerScoresQuery ctx.store input)) := by
  refine ⟨?_, ?_, ?_⟩
  · intro u hauth hne
    unfold getPlayerScores
    rw [hauth]
    dsimp only
    rw [if_pos hne]
  · intro u hauth heq
    unfold getPlayerScores
    rw [hauth]
    dsimp only
    rw [if_neg (by simp [heq])]
  · intro hauth
    unfold getPlayerScores
    rw [hauth]

theorem getPlayerScores_player_auth_witness :
    getPlayerScores ⟨.player_token "alice", ⟨[], [], []⟩⟩ ⟨"g1", "bob", false⟩ =
      .error { code := .UNAUTHORIZED
               message := "Player " ++ "alice" ++
                 " is only authorized to get their own scores" } :=
  (getPlayerScores_player_auth ⟨.player_token "alice", ⟨[], [], []⟩⟩
    ⟨"g1", "bob", false⟩).1 "alice" rfl (by decide)

/-- C3: when the queried game has zero associated tags — in particular when
the game id is absent from the store — an authorized `getPlayerScores`
call succeeds with an empty playerScores list, for any player id
(including one absent from the store) and regardless of the player's
actual score records. -/
theorem getPlayerScores_empty_tag_set (ctx : Ctx) (input : GetPlayerScoresInput)
    (hnotags : ∀ t ∈ ctx.store.tags, input.game_id ∉ t.inputToGames)
    (hauth : ∀ u, ctx.authData = .player_token u → u = input.player_id) :
    getPlayerScores ctx input = .ok { playerScores := [] } := by
  have htags : gameTagsOf ctx.store input.game_id = [] := by
    rw [gameTagsOf, List.filter_eq_nil_iff]
    intro t ht
    simp only [List.contains_iff_exists_mem_beq, beq_iff_eq, not_exists]
    intro g hg
    exact hnotags t ht (hg.2 ▸ hg.1)
  have hgos : gameObjectsOf ctx.store input.game_id = [] := by
    rw [gameObjectsOf, List.filter_eq_nil_iff]
    intro go hgo
    simp [htags]
  have hraw : rawPlayerScores ctx.store input = [] := by
    rw [rawPlayerScores, List.filter_eq_nil_iff]
    intro ps hps
    simp [hgos]
  have hrun : runPlayerScoresQuery ctx.store input = { playerScores := [] } := by
    rw [runPlayerScoresQuery, hraw]
    rfl
  unfold getPlayerScores
  cases hctx : ctx.authData with
  | player_token u =>
    dsimp only
    rw [if_neg (by simp [hauth u hctx])]
    rw [hrun]
  | app_token =>
    rw [hrun]

theorem getPlayerScores_empty_tag_set_witness :
    getPlayerScores
      ⟨.app_token,
        ⟨[⟨"t1", "tag one", ["g1"]⟩],
         [⟨"go1", ⟨0⟩, ⟨0⟩, "one", none, ["t1"]⟩],
         [⟨"p1", "go1", ⟨5⟩, ⟨0⟩, ⟨0⟩⟩]⟩⟩
      ⟨"gX", "pX", false⟩ = .ok { playerScores := [] } :=
  getPlayerScores_empty_tag_set
    ⟨.app_token,
      ⟨[⟨"t1", "tag one", ["g1"]⟩],
       [⟨"go1", ⟨0⟩, ⟨0⟩, "one", none, ["t1"]⟩],
       [⟨"p1", "go1", ⟨5⟩, ⟨0⟩, ⟨0⟩⟩]⟩⟩
    ⟨"gX", "pX", false⟩ (by decide) (by intro u h; cases h)

lemma mem_raw_gameObject_exists (s : Store) (input : GetPlayerScoresInput)
    (ps : PlayerScore) (hps : ps ∈ rawPlayerScores s input) :
    ∃ go ∈ s.gameObjects, go.id = ps.gameObjectId := by
  rw [rawPlayerScores] at hps
  have h := (List.mem_filter.mp hps).2
  rw [Bool.and_eq_true] at h
  have h1 := h.1
  rw [List.contains_iff_exists_mem_beq] at h1
  obtain ⟨goid, hgoid, hbeq⟩ := h1
  rw [List.mem_map] at hgoid
  obtain ⟨go, hgomem, hgoeq⟩ := hgoid
  rw [beq_iff_eq] at hbeq
  refine ⟨go, List.mem_of_mem_filter hgomem, ?_⟩
  rw [hgoeq]
  exact hbeq.symm

/-- C4: every successful `getPlayerScores` result is sorted by score in
descending order; ties retain a stable order (the records carrying any
fixed score value appear in their original store order); and for
qualifying scores [3, 10, 1] the returned order is [10, 3, 1]. -/
theorem getPlayerScores_sorted_desc (ctx : Ctx) (input : GetPlayerScoresInput)
    (out : GetPlayerScoresOutput) (h : getPlayerScores ctx input = .ok out) :
    out.playerScores.Pairwise (fun a b => b.score ≤ a.score) ∧
    (∀ v : Int, out.playerScores.filter (fun r => r.score == v) =
      ((rawPlayerScores ctx.store input).filter (fun ps => ps.score.val == v)).map
        (shapeScore ctx.store input.include_game_objects)) ∧
    (getPlayerScores
        ⟨.app_token,
          ⟨[⟨"t1", "tag one", ["g1"]⟩],
           [⟨"go1", ⟨0⟩, ⟨0⟩, "one", none, ["t1"]⟩,
            ⟨"go2", ⟨0⟩, ⟨0⟩, "two", none, ["t1"]⟩,
            ⟨"go3", ⟨0⟩, ⟨0⟩, "three", none, ["t1"]⟩],
           [⟨"p1", "go1", ⟨3⟩, ⟨0⟩, ⟨0⟩⟩,
            ⟨"p1", "go2", ⟨10⟩, ⟨0⟩, ⟨0⟩⟩,
            ⟨"p1", "go3", ⟨1⟩, ⟨0⟩, ⟨0⟩⟩]⟩⟩
        ⟨"g1", "p1", false⟩).map
      (fun o => o.playerScores.map (fun r => r.score)) =
      .ok [10, 3, 1] := by
  have hout := getPlayerScores_ok_elim ctx input out h
  refine ⟨?_, ?_, by rfl⟩
  · rw [hout, runPlayerScoresQuery]
    exact (sortScoresDesc_sorted (rawPlayerScores ctx.store input)).map
      (shapeScore ctx.store input.include_game_objects) (fun a b hab => hab)
  · intro v
    rw [hout, runPlayerScoresQuery]
    dsimp only
    rw [List.filter_map]
    have hpred : ((fun r : PlayerScoreOut => r.score == v) ∘
        (shapeScore ctx.store input.include_game_objects)) =
        (fun ps : PlayerScore => ps.score.val == v) := rfl
    rw [hpred, sortScoresDesc_filter_eq]

theorem getPlayerScores_sorted_desc_witness :
    ([({ createdAt := "0Z", updatedAt := "0Z", score := (10 : Int), playerId := "p1",
         gameObjectId := "go2", gameObject := none } : PlayerScoreOut),
      { createdAt := "0Z", updatedAt := "0Z", score := (3 : Int), playerId := "p1",
        gameObjectId := "go1", gameObject := none },
      { createdAt := "0Z", updatedAt := "0Z", score := (1 : Int), playerId := "p1",
        gameObjectId := "go3", gameObject := none }]).Pairwise
      (fun a b => b.score ≤ a.score) :=
  (getPlayerScores_sorted_desc
    ⟨.app_token,
      ⟨[⟨"t1", "tag one", ["g1"]⟩],
       [⟨"go1", ⟨0⟩, ⟨0⟩, "one", none, ["t1"]⟩,
        ⟨"go2", ⟨0⟩, ⟨0⟩, "two", none, ["t1"]⟩,
        ⟨"go3", ⟨0⟩, ⟨0⟩, "three", none, ["t1"]⟩],
       [⟨"p1", "go1", ⟨3⟩, ⟨0⟩, ⟨0⟩⟩,
        ⟨"p1", "go2", ⟨10⟩, ⟨0⟩, ⟨0⟩⟩,
        ⟨"p1", "go3", ⟨1⟩, ⟨0⟩, ⟨0⟩⟩]⟩⟩
    ⟨"g1", "p1", false⟩
    ⟨[{ createdAt := "0Z", updatedAt := "0Z", score := (10 : Int), playerId := "p1",
        gameObjectId := "go2", gameObject := none },
      { createdAt := "0Z", updatedAt := "0Z", score := (3 : Int), playerId := "p1",
        gameObjectId := "go1", gameObject := none },
      { createdAt := "0Z", updatedAt := "0Z", score := (1 : Int), playerId := "p1",
        gameObjectId := "go3", gameObject := none }]⟩ (by rfl)).1

/-- C5: every record of a successful result carries the underlying row's
score coerced by `Decimal.toNumber` to a plain number and its timestamps
coerced by `toISOString` to strings; the embedded `gameObject` field is
absent when `include_game_objects` is false and, when it is true, present
with the related game object's id, name, description and ISO timestamps
(the output shape carries no tags). -/
theorem getPlayerScores_output_shape (ctx : Ctx) (input : GetPlayerScoresInput)
    (out : GetPlayerScoresOutput) (h : getPlayerScores ctx input = .ok out) :
    ∀ rec ∈ out.playerScores, ∃ ps ∈ ctx.store.playerScores,
      rec.score = ps.score.toNumber ∧
      rec.createdAt = ps.createdAt.toISOString ∧
      rec.updatedAt = ps.updatedAt.toISOString ∧
      rec.playerId = ps.playerId ∧
      rec.gameObjectId = ps.gameObjectId ∧
      (input.include_game_objects = false → rec.gameObject = none) ∧
      (input.include_game_objects = true →
        ∃ go ∈ ctx.store.gameObjects, go.id = ps.gameObjectId ∧
          rec.gameObject = some { id := go.id
                                  createdAt := go.createdAt.toISOString
                                  updatedAt := go.updatedAt.toISOString
                                  name := go.name
                                  description := go.description }) := by
  intro rec hrec
  rw [getPlayerScores_ok_elim ctx input out h, runPlayerScoresQuery] at hrec
  dsimp only at hrec
  rw [List.mem_map] at hrec
  obtain ⟨ps, hpsmem, hshape⟩ := hrec
  have hpsraw : ps ∈ rawPlayerScores ctx.store input :=
    (sortScoresDesc_perm (rawPlayerScores ctx.store input)).mem_iff.mp hpsmem
  have hpsstore : ps ∈ ctx.store.playerScores := by
    rw [rawPlayerScores] at hpsraw
    exact List.mem_of_mem_filter hpsraw
  subst hshape
  refine ⟨ps, hpsstore, rfl, rfl, rfl, rfl, rfl, ?_, ?_⟩
  · intro hflag
    simp [shapeScore, hflag]
  · intro hflag
    obtain ⟨go₀, hgo₀mem, hgo₀id⟩ := mem_raw_gameObject_exists ctx.store input ps hpsraw
    have hsome : (ctx.store.findGameObject ps.gameObjectId).isSome := by
      rw [Store.findGameObject, List.find?_isSome]
      exact ⟨go₀, hgo₀mem, by simp [hgo₀id]⟩
    obtain ⟨go, hgo⟩ := Option.isSome_iff_exists.mp hsome
    have hgo' : ctx.store.gameObjects.find? (fun g => g.id == ps.gameObjectId) = some go := by
      rw [← Store.findGameObject]
      exact hgo
    have hgomem : go ∈ ctx.store.gameObjects := List.mem_of_find?_eq_some hgo'
    have hgoid : go.id = ps.gameObjectId := by
      have := List.find?_some hgo'
      rwa [beq_iff_eq] at this
    refine ⟨go, hgomem, hgoid, ?_⟩
    simp [shapeScore, hflag, hgo, shapeGameObject]

theorem getPlayerScores_output_shape_witness :
    ∃ ps ∈ ([⟨"p1", "go1", ⟨5⟩, ⟨7⟩, ⟨8⟩⟩] : List PlayerScore),
      ({ createdAt := "7Z", updatedAt := "8Z", score := (5 : Int), playerId := "p1",
         gameObjectId := "go1",
         gameObject := some { id := "go1", createdAt := "2Z", updatedAt := "3Z",
                              name := "one", description := some "d" } } :
        PlayerScoreOut).score = ps.score.toNumber ∧
      "7Z" = ps.createdAt.toISOString ∧
      "8Z" = ps.updatedAt.toISOString ∧
      "p1" = ps.playerId ∧
      "go1" = ps.gameObjectId ∧
      (true = false →
        (some { id := "go1", createdAt := "2Z", updatedAt := "3Z",
                name := "one", description := some "d" } :
          Option GameObjectOut) = none) ∧
      (true = true →
        ∃ go ∈ ([⟨"go1", ⟨2⟩, ⟨3⟩, "one", some "d", ["t1"]⟩] : List GameObject),
          go.id = ps.gameObjectId ∧
          (some { id := "go1", createdAt := "2Z", updatedAt := "3Z",
                  name := "one", description := some "d" } :
            Option GameObjectOut) =
            some { id := go.id
                   createdAt := go.createdAt.toISOString
                   updatedAt := go.updatedAt.toISOString
                   name := go.name
                   description := go.description }) := by
  have := getPlayerScores_output_shape
    ⟨.app_token,
      ⟨[⟨"t1", "tag one", ["g1"]⟩],
       [⟨"go1", ⟨2⟩, ⟨3⟩, "one", some "d", ["t1"]⟩],
       [⟨"p1", "go1", ⟨5⟩, ⟨7⟩, ⟨8⟩⟩]⟩⟩
    ⟨"g1", "p1", true⟩
    ⟨[{ createdAt := "7Z", updatedAt := "8Z", score := (5 : Int), playerId := "p1",
        gameObjectId := "go1",
        gameObject := some { id := "go1", createdAt := "2Z", updatedAt := "3Z",
                             name := "one", description := some "d" } }]⟩ (by rfl)
  exact this _ (List.mem_singleton.mpr rfl)

/-- C6: a score on a game object that qualifies for the queried game —
also when the game object carries several tags that are each associated
with the game — appears exactly once in the result: multi-tag overlap
never duplicates a score record. -/
theorem getPlayerScores_no_duplication (ctx : Ctx) (input : GetPlayerScoresInput)
    (out : GetPlayerScoresOutput) (goId : String)
    (h : getPlayerScores ctx input = .ok out)
    (hqual : ∃ go ∈ ctx.store.gameObjects, go.id = goId ∧
      ∃ t ∈ ctx.store.tags, t.id ∈ go.tags ∧ input.game_id ∈ t.inputToGames)
    (honce : (ctx.store.playerScores.filter
        (fun ps => ps.playerId == input.player_id && ps.gameObjectId == goId)).length
      = 1) :
    (out.playerScores.filter
        (fun r => r.playerId == input.player_id && r.gameObjectId == goId)).length
      = 1 := by
  rw [getPlayerScores_ok_elim ctx input out h, runPlayerScoresQuery]
  dsimp only
  rw [← List.countP_eq_length_filter, List.countP_map]
  have hpred : ((fun r : PlayerScoreOut => r.playerId == input.player_id &&
      r.gameObjectId == goId) ∘ (shapeScore ctx.store input.include_game_objects)) =
      (fun ps : PlayerScore => ps.playerId == input.player_id &&
        ps.gameObjectId == goId) := rfl
  rw [hpred, (sortScoresDesc_perm (rawPlayerScores ctx.store input)).countP_eq,
    rawPlayerScores, List.countP_eq_length_filter, List.filter_filter]
  rw [← honce]
  apply congrArg
  apply List.filter_congr
  intro ps _
  by_cases hpair : (ps.playerId == input.player_id && ps.gameObjectId == goId) = true
  · rw [hpair, Bool.true_and]
    rw [Bool.and_eq_true, beq_iff_eq, beq_iff_eq] at hpair
    obtain ⟨go, hgomem, hgoid, t, htmem, htid, htg⟩ := hqual
    have hgoin : go ∈ gameObjectsOf ctx.store input.game_id := by
      rw [gameObjectsOf, List.mem_filter]
      refine ⟨hgomem, ?_⟩
      rw [List.any_eq_true]
      refine ⟨t.id, htid, ?_⟩
      rw [List.contains_iff_exists_mem_beq]
      refine ⟨t.id, ?_, by simp⟩
      rw [List.mem_map]
      refine ⟨t, ?_, rfl⟩
      rw [gameTagsOf, List.mem_filter]
      refine ⟨htmem, ?_⟩
      rw [List.contains_iff_exists_mem_beq]
      exact ⟨input.game_id, htg, by simp⟩
    have hcontains : ((gameObjectsOf ctx.store input.game_id).map
        GameObject.id).contains ps.gameObjectId = true := by
      rw [List.contains_iff_exists_mem_beq]
      refine ⟨goId, ?_, by simp [hpair.2]⟩
      rw [List.mem_map]
      exact ⟨go, hgoin, hgoid⟩
    rw [hcontains, Bool.true_and, beq_iff_eq]
    simp [hpair.1]
  · rw [Bool.eq_false_iff.mpr hpair]
    simp

theorem getPlayerScores_no_duplication_witness :
    (([({ createdAt := "0Z", updatedAt := "0Z", score := (5 : Int), playerId := "p1",
          gameObjectId := "go1", gameObject := none } : PlayerScoreOut)]).filter
        (fun r => r.playerId == "p1" && r.gameObjectId == "go1")).length = 1 :=
  getPlayerScores_no_duplication
    ⟨.app_token,
      ⟨[⟨"tA", "tag A", ["g1"]⟩, ⟨"tB", "tag B", ["g1"]⟩],
       [⟨"go1", ⟨0⟩, ⟨0⟩, "one", none, ["tA", "tB"]⟩],
       [⟨"p1", "go1", ⟨5⟩, ⟨0⟩, ⟨0⟩⟩]⟩⟩
    ⟨"g1", "p1", false⟩
    ⟨[{ createdAt := "0Z", updatedAt := "0Z", score := (5 : Int), playerId := "p1",
        gameObjectId := "go1", gameObject := none }]⟩
    "go1" (by rfl)
    ⟨⟨"go1", ⟨0⟩, ⟨0⟩, "one", none, ["tA", "tB"]⟩, by simp, rfl,
      ⟨"tA", "tag A", ["g1"]⟩, by simp, by simp, by simp⟩
    (by rfl)

/-- C7 counterexample: a request whose game_id and player_id are blank
(empty) strings is not rejected — the zod schema uses a plain `z.string()`
with no non-emptiness constraint, so the endpoint succeeds (with an empty
result) instead of failing with a validation error. -/
theorem getPlayerScoresEndpoint_blank_ids_accepted :
    getPlayerScoresEndpoint
      ⟨.app_token,
        ⟨[⟨"t1", "tag one", ["g1"]⟩],
         [⟨"go1", ⟨0⟩, ⟨0⟩, "one", none, ["t1"]⟩],
         [⟨"p1", "go1", ⟨5⟩, ⟨0⟩, ⟨0⟩⟩]⟩⟩
      ⟨some "", some "", none⟩ = .ok { playerScores := [] } := by rfl

/-- C7 amended: input validation fails only when game_id or player_id is
missing from the request; a present but blank (empty-string) id passes
validation, and the request proceeds to the query. -/
theorem parseGetPlayerScoresInput_validation (raw : RawGetPlayerScoresInput) :
    (raw.game_id = none ∨ raw.player_id = none →
      parseGetPlayerScoresInput raw =
        .error { code := .BAD_REQUEST, message := "Invalid input" }) ∧
    (∀ g p, raw.game_id = some g → raw.player_id = some p →
      parseGetPlayerScoresInput raw =
        .ok { game_id := g
              player_id := p
              include_game_objects :=
                match raw.include_game_objects with
                | some v => v == "true"
                | none => false }) := by
  obtain ⟨og, op, oi⟩ := raw
  constructor
  · intro hmiss
    rcases hmiss with hg | hp
    · cases hg
      cases op <;> rfl
    · cases hp
      cases og <;> rfl
  · intro g p hg hp
    cases hg
    cases hp
    rfl

theorem parseGetPlayerScoresInput_validation_witness :
    parseGetPlayerScoresInput ⟨some "", some "", none⟩ =
      .ok { game_id := ""
            player_id := ""
            include_game_objects :=
              match (none : Option String) with
              | some v => v == "true"
              | none => false } :=
  (parseGetPlayerScoresInput_validation ⟨some "", some "", none⟩).2 "" "" rfl rfl

/-- C8 counterexample: with the non-empty free-text filter "needle", a game
object whose description contains the filter string but whose id and name
do not is not matched by the filter the table builds — so the claimed
equivalence (match iff substring of id, name OR description) fails. -/
theorem gameObjectFilter_description_not_consulted :
    ¬ (matchesGameObjectFilter (buildGameObjectFilter "needle" none)
        ⟨"a", ⟨0⟩, ⟨0⟩, "b", some "has a needle inside", []⟩ = true ↔
      (strContains "a" "needle" || strContains "b" "needle" ||
        strContains "has a needle inside" "needle") = true) := by
  decide

/-- C8 amended: for every non-empty free-text filter string, the filter the
game-objects table supplies to the listing and its companion count query
matches a game object iff the string is a substring of its id or of its
name (the description column is not consulted), combined with the optional
exact-match tag filter. -/
theorem gameObjectFilter_matches_iff (q : String) (hq : q ≠ "")
    (tag : Option TagFilter) (go : GameObject) :
    matchesGameObjectFilter (buildGameObjectFilter q tag) go =
      ((strContains go.id q || strContains go.name q) &&
        match tag with
        | some tf => go.tags.contains tf.tagId
        | none => true) := by
  rw [buildGameObjectFilter, if_pos hq, matchesGameObjectFilter]
  dsimp only
  rw [Bool.or_false]

theorem gameObjectFilter_matches_iff_witness :
    matchesGameObjectFilter (buildGameObjectFilter "need" none)
      ⟨"x", ⟨0⟩, ⟨0⟩, "needy", none, []⟩ =
      ((strContains "x" "need" || strContains "needy" "need") &&
        match (none : Option TagFilter) with
        | some tf => List.contains ([] : List String) tf.tagId
        | none => true) :=
  gameObjectFilter_matches_iff "need" (by decide) none ⟨"x", ⟨0⟩, ⟨0⟩, "needy", none, []⟩

/-- C9: `updateById`'s tag handling is additive connect-only — every
previously associated tag stays associated and every listed tag becomes
associated — and any of id/name/description absent from the supplied data
keep their previous values. -/
theorem updateById_connect_only (s : Store) (whereId : String)
    (d : UpdateGameObjectData) (go : GameObject)
    (hfind : s.gameObjects.find? (fun g => g.id == whereId) = some go) :
    ∃ s', updateById s whereId d = .ok (s', applyGameObjectUpdate go d) ∧
      (∀ t ∈ go.tags, t ∈ (applyGameObjectUpdate go d).tags) ∧
      (∀ t ∈ d.tags.getD [], t ∈ (applyGameObjectUpdate go d).tags) ∧
      (d.id = none → (applyGameObjectUpdate go d).id = go.id) ∧
      (d.name = none → (applyGameObjectUpdate go d).name = go.name) ∧
      (d.description = none →
        (applyGameObjectUpdate go d).description = go.description) := by
  refine ⟨{ s with gameObjects := s.gameObjects.map fun g => if g.id == whereId then applyGameObjectUpdate g d else g }, ?_, ?_, ?_, ?_, ?_, ?_⟩
  · rw [updateById, hfind]
  · intro t ht
    rw [applyGameObjectUpdate]
    exact List.mem_append_left _ ht
  · intro t ht
    rw [applyGameObjectUpdate]
    dsimp only
    by_cases hmem : t ∈ go.tags
    · exact List.mem_append_left _ hmem
    · apply List.mem_append_right
      rw [List.mem_filter]
      exact ⟨ht, by simp [hmem]⟩
  · intro hid
    rw [applyGameObjectUpdate]
    simp [hid]
  · intro hname
    rw [applyGameObjectUpdate]
    simp [hname]
  · intro hdesc
    rw [applyGameObjectUpdate]
    simp [hdesc]

theorem updateById_connect_only_witness :
    ∃ s', updateById
        ⟨[], [⟨"go1", ⟨0⟩, ⟨0⟩, "one", some "d", ["t1"]⟩], []⟩ "go1"
        ⟨none, some "renamed", none, some ["t2"]⟩ =
        .ok (s', applyGameObjectUpdate ⟨"go1", ⟨0⟩, ⟨0⟩, "one", some "d", ["t1"]⟩
          ⟨none, some "renamed", none, some ["t2"]⟩) ∧
      (∀ t ∈ (["t1"] : List String),
        t ∈ (applyGameObjectUpdate ⟨"go1", ⟨0⟩, ⟨0⟩, "one", some "d", ["t1"]⟩
          ⟨none, some "renamed", none, some ["t2"]⟩).tags) ∧
      (∀ t ∈ (some ["t2"] : Option (List String)).getD [],
        t ∈ (applyGameObjectUpdate ⟨"go1", ⟨0⟩, ⟨0⟩, "one", some "d", ["t1"]⟩
          ⟨none, some "renamed", none, some ["t2"]⟩).tags) ∧
      ((none : Option String) = none →
        (applyGameObjectUpdate ⟨"go1", ⟨0⟩, ⟨0⟩, "one", some "d", ["t1"]⟩
          ⟨none, some "renamed", none, some ["t2"]⟩).id = "go1") ∧
      ((some "renamed" : Option String) = none →
        (applyGameObjectUpdate ⟨"go1", ⟨0⟩, ⟨0⟩, "one", some "d", ["t1"]⟩
          ⟨none, some "renamed", none, some ["t2"]⟩).name = "one") ∧
      ((none : Option String) = none →
        (applyGameObjectUpdate ⟨"go1", ⟨0⟩, ⟨0⟩, "one", some "d", ["t1"]⟩
          ⟨none, some "renamed", none, some ["t2"]⟩).description = some "d") :=
  updateById_connect_only
    ⟨[], [⟨"go1", ⟨0⟩, ⟨0⟩, "one", some "d", ["t1"]⟩], []⟩ "go1"
    ⟨none, some "renamed", none, some ["t2"]⟩
    ⟨"go1", ⟨0⟩, ⟨0⟩, "one", some "d", ["t1"]⟩ (by rfl)

/-- C10: pageCount is the ceiling of count / pageSize, and the page-index
adjustment resets any pageIndex ≥ pageCount to pageCount - 1; in
particular a filtered count of 0 gives pageCount 0, the adjustment sends
pageIndex 0 to -1, and the early return on pageCount = 0 then leaves the
index at -1 rather than restoring it to 0. -/
theorem gameObjectsTable_page_adjustment :
    (∀ c p : Nat, 0 < p → pageCount c p = c ⌈/⌉ p) ∧
    (∀ (idx : Int) (pc : Nat), idx ≥ (pc : Int) →
      adjustPageIndex idx pc = (pc : Int) - 1) ∧
    (∀ p : Nat, pageCount 0 p = 0) ∧
    adjustPageIndex 0 (pageCount 0 10) = -1 ∧
    adjustPageIndex (-1) (pageCount 0 10) = -1 := by
  refine ⟨?_, ?_, ?_, by decide, by decide⟩
  · intro c p _
    rw [pageCount, Nat.ceilDiv_eq_add_pred_div]
  · intro idx pc h
    rw [adjustPageIndex, if_pos h]
  · intro p
    cases p with
    | zero => rfl
    | succ n =>
      rw [pageCount]
      rw [Nat.zero_add, Nat.succ_sub_one]
      exact Nat.div_eq_of_lt (Nat.lt_succ_self n)

theorem gameObjectsTable_page_adjustment_witness :
    pageCount 7 10 = 7 ⌈/⌉ 10 ∧ adjustPageIndex 3 2 = (2 : Int) - 1 :=
  ⟨gameObjectsTable_page_adjustment.1 7 10 (by decide),
   gameObjectsTable_page_adjustment.2.1 3 2 (by decide)⟩

end TwoBttns
